import Mathlib

/-!
A shallow embedding of `src/amcatable/exporters/base.py`.

The module defines an abstract `Exporter` with four entry points:

* `dump`: the abstract per-format writer; on the base class it raises
  `NotImplementedError` without touching the sink.
* `dumps`: materialises the export in memory by writing into a fresh
  `io.BytesIO` and returning `getvalue()`.
* `dump_iter`: streaming mode; it submits `_dump_iter` to a
  `ThreadPoolExecutor(max_workers=1)`, which runs `dump` against a
  `QueueWriter` feeding a `Queue(maxsize=buffer_size)`, while the caller's
  loop polls the queue with a 0.2s timeout as long as
  `future.running() or not queue.empty()`, then calls `future.result()`.
* `dump_http_reponse`: wraps `dump_iter` in a Django streaming response.

A concrete `dump` implementation interacts with its sink only through
`write(b)`, so for a fixed table and hints it is fully described by the
finite sequence of byte chunks it writes plus an optional exception raised
afterwards (`DumpBehavior`).  Bytes objects are modelled as `List Nat`.
The concurrent handoff inside `dump_iter` is modelled as an interleaving
transition system (`IterStep`) over configurations (`IterState`) recording
the worker future's state (pending / running / done), the queue contents,
how many chunks the producer has put, and the consumer's phase.
-/

/-- A Python `bytes` chunk, as the list of its byte values. -/
abbrev Chunk := List Nat

/-- The Python exceptions relevant to this module.  `exporterError` stands
for an arbitrary exception raised by a concrete `dump` implementation. -/
inductive PyExn where
  | notImplementedError (msg : String)
  | exporterError (code : Nat)
deriving DecidableEq

/-- Model of `io.BytesIO`: an in-memory byte buffer. -/
structure BytesIO where
  contents : List Nat
deriving DecidableEq

/-- The `write(b)` method appends the bytes of `b` to the buffer. -/
def BytesIO.write (fo : BytesIO) (b : Chunk) : BytesIO :=
  ⟨fo.contents ++ b⟩

/-- The `getvalue()` method returns the accumulated bytes. -/
def BytesIO.getvalue (fo : BytesIO) : List Nat :=
  fo.contents

/-- Model of `queue.Queue`: FIFO contents plus the `maxsize` argument
(`maxsize = 0` means unbounded, as in Python). -/
structure PyQueue where
  items : List Chunk
  maxsize : Nat
deriving DecidableEq

/-- The constructor `QueueWriter(queue)` stores the queue it adapts. -/
structure QueueWriter where
  queue : PyQueue
deriving DecidableEq

/-- The `write(b)` method is `self.queue.put(b)`: the chunk is enqueued
unchanged at the back of the queue. -/
def QueueWriter.write (w : QueueWriter) (b : Chunk) : QueueWriter :=
  ⟨⟨w.queue.items ++ [b], w.queue.maxsize⟩⟩

/-- Calling `QueueWriter.write` on a sequence of chunks in order. -/
def QueueWriter.writeSeq (w : QueueWriter) (bs : List Chunk) : QueueWriter :=
  bs.foldl QueueWriter.write w

/-- The `Exporter` class attributes: `extension = None` and
`content_type = None` on the base class, overridden by subclasses. -/
structure Exporter where
  extension : Option String
  content_type : Option String
deriving DecidableEq

/-- The message of the `NotImplementedError` raised by the base `dump`. -/
def Exporter.notImplementedMsg : String :=
  "Subclasses should implement this method."

/-- The base-class `Exporter.dump`: it raises `NotImplementedError`
immediately, returning the sink unchanged (no write is performed). -/
def Exporter.dump (fo : BytesIO) : BytesIO × Option PyExn :=
  (fo, some (PyExn.notImplementedError Exporter.notImplementedMsg))

/-- What a concrete `dump` implementation does for one fixed table and
fixed hints: the chunks it writes to the sink, in order, and the exception
(if any) it raises after its last write.  A `dump` implementation can
observe its sink only through `write`, so this determines its interaction
with every sink. -/
structure DumpBehavior where
  writes : List Chunk
  raises : Option PyExn
deriving DecidableEq

/-- Method `dumps`: create a fresh `io.BytesIO`, run `dump` against it,
and return `getvalue()`; an exception from `dump` propagates. -/
def Exporter.dumps (d : DumpBehavior) : Except PyExn (List Nat) :=
  let fo : BytesIO := ⟨[]⟩
  let fo2 := d.writes.foldl BytesIO.write fo
  match d.raises with
  | some e => Except.error e
  | none => Except.ok fo2.getvalue

/-- State of the `Future` returned by `executor.submit(self._dump_iter, ...)`:
`future.running()` is `True` only in the `running` state (it is `False`
both while the work item is still pending and after completion). -/
inductive WorkerStatus where
  | pending
  | running
  | done
deriving DecidableEq

/-- Where the consumer (the generator body of `dump_iter`) is:
still in the polling `while` loop, past the loop and about to call
`future.result()`, finished normally, or finished by re-raising the
worker's exception. -/
inductive ConsumerPhase where
  | loop
  | awaitResult
  | finished
  | raised
deriving DecidableEq

/-- A configuration of `dump_iter`'s producer/consumer handoff. -/
structure IterState where
  behavior : DumpBehavior
  bufferSize : Nat
  produced : Nat
  queue : List Chunk
  worker : WorkerStatus
  consumer : ConsumerPhase
  yielded : List Chunk
deriving DecidableEq

/-- One interleaving step of `dump_iter`'s execution.

* `start`: the pool's worker thread picks up the submitted `_dump_iter`
  work item, flipping the future from pending to running.
* `produce`: `dump` performs its next `QueueWriter.write`, i.e.
  `queue.put(b)`; `put` only proceeds when the queue is not full
  (`Queue(maxsize=0)` is unbounded in Python, hence the disjunction).
* `finish`: `dump` returns (or raises) after its last write; the future
  becomes done.
* `consume`: the loop condition `future.running() or not queue.empty()`
  held and `queue.get(timeout=0.2)` returned the front chunk, which the
  generator yields.
* `pollTimeout`: the loop condition held but the queue stayed empty, so
  `get` raised `Empty` and the loop retries.
* `exitLoop`: the loop condition failed (`future.running()` is false and
  the queue is empty), the loop exits towards `future.result()`.
* `getResult`: `future.result()` returns once the future is done,
  re-raising the worker's exception if there was one. -/
inductive IterStep : IterState → IterState → Prop where
  | start (s : IterState) (hw : s.worker = WorkerStatus.pending) :
      IterStep s { s with worker := WorkerStatus.running }
  | produce (s : IterState) (h : s.produced < s.behavior.writes.length)
      (hw : s.worker = WorkerStatus.running)
      (hq : s.bufferSize = 0 ∨ s.queue.length < s.bufferSize) :
      IterStep s { s with
        queue := s.queue ++ [s.behavior.writes.get ⟨s.produced, h⟩],
        produced := s.produced + 1 }
  | finish (s : IterState) (hw : s.worker = WorkerStatus.running)
      (h : s.produced = s.behavior.writes.length) :
      IterStep s { s with worker := WorkerStatus.done }
  | consume (s : IterState) (c : Chunk) (rest : List Chunk)
      (hc : s.consumer = ConsumerPhase.loop)
      (hcond : s.worker = WorkerStatus.running ∨ s.queue ≠ [])
      (hq : s.queue = c :: rest) :
      IterStep s { s with queue := rest, yielded := s.yielded ++ [c] }
  | pollTimeout (s : IterState) (hc : s.consumer = ConsumerPhase.loop)
      (hcond : s.worker = WorkerStatus.running ∨ s.queue ≠ [])
      (hq : s.queue = []) :
      IterStep s s
  | exitLoop (s : IterState) (hc : s.consumer = ConsumerPhase.loop)
      (hw : s.worker ≠ WorkerStatus.running) (hq : s.queue = []) :
      IterStep s { s with consumer := ConsumerPhase.awaitResult }
  | getResult (s : IterState) (hc : s.consumer = ConsumerPhase.awaitResult)
      (hw : s.worker = WorkerStatus.done) :
      IterStep s { s with consumer :=
        if s.behavior.raises.isSome then ConsumerPhase.raised
        else ConsumerPhase.finished }

/-- Reachability along `IterStep`. -/
def Reach (a b : IterState) : Prop :=
  Relation.ReflTransGen IterStep a b

/-- The configuration right after `executor.submit` returns, before the
worker thread has picked the task up: the future is still pending. -/
def initState (d : DumpBehavior) (bufferSize : Nat) : IterState :=
  ⟨d, bufferSize, 0, [], WorkerStatus.pending, ConsumerPhase.loop, []⟩

/-- Same configuration, but under a schedule where the worker thread has
already flipped the future to running before the consumer's first check. -/
def initRunning (d : DumpBehavior) (bufferSize : Nat) : IterState :=
  ⟨d, bufferSize, 0, [], WorkerStatus.running, ConsumerPhase.loop, []⟩

/-- The iteration has completed: the generator finished normally or ended
by re-raising the worker's exception. -/
abbrev terminalPhase (s : IterState) : Prop :=
  s.consumer = ConsumerPhase.finished ∨ s.consumer = ConsumerPhase.raised

/-- No step is enabled: the system is deadlocked (unless terminal). -/
def IterStuck (s : IterState) : Prop :=
  ∀ t, ¬ IterStep s t

/-- Inductive invariant of the handoff, for schedules started at
`initRunning`: the chunks yielded so far followed by the chunks still in
the queue are exactly the first `produced` chunks of the writer's output;
a done worker has produced everything; once the consumer has left the
loop the worker is done and the queue has been drained; and the final
phase matches whether `dump` raised. -/
def IterInv (d : DumpBehavior) (bs : Nat) (s : IterState) : Prop :=
  s.behavior = d ∧ s.bufferSize = bs ∧
  s.worker ≠ WorkerStatus.pending ∧
  s.produced ≤ d.writes.length ∧
  s.yielded ++ s.queue = d.writes.take s.produced ∧
  (s.worker = WorkerStatus.done → s.produced = d.writes.length) ∧
  (s.consumer ≠ ConsumerPhase.loop →
    s.worker = WorkerStatus.done ∧ s.queue = []) ∧
  (s.consumer = ConsumerPhase.raised → d.raises.isSome = true) ∧
  (s.consumer = ConsumerPhase.finished → d.raises = none)

/-- Queue-boundedness invariant, valid from the true initial state
(pending worker) under every schedule: when `buffer_size ≥ 1` the queue
never holds more than `buffer_size` chunks, because `queue.put` in
`QueueWriter.write` blocks while the queue is full. -/
def QueueInv (bs : Nat) (s : IterState) : Prop :=
  s.bufferSize = bs ∧ (1 ≤ bs → s.queue.length ≤ bs)

/-- Rank of the worker future in the termination measure. -/
def workerRank : WorkerStatus → Nat
  | WorkerStatus.pending => 2
  | WorkerStatus.running => 1
  | WorkerStatus.done => 0

/-- Rank of the consumer phase in the termination measure. -/
def consumerRank : ConsumerPhase → Nat
  | ConsumerPhase.loop => 2
  | ConsumerPhase.awaitResult => 1
  | ConsumerPhase.finished => 0
  | ConsumerPhase.raised => 0

/-- Termination measure: every step other than an `Empty` poll timeout
strictly decreases it. -/
def IterState.size (s : IterState) : Nat :=
  2 * (s.behavior.writes.length - s.produced) + s.queue.length
    + workerRank s.worker + consumerRank s.consumer

/-- Either `terminalPhase s` holds or some non-timeout step strictly
decreases the termination measure. -/
def ProgressAt (s : IterState) : Prop :=
  terminalPhase s ∨ ∃ t, IterStep s t ∧ t.size < s.size

/-- Model of `concurrent.futures.ThreadPoolExecutor`: counts of submitted
work items still queued, currently being run by a pool thread, and
completed.  A pool thread may pick up a queued item only while fewer than
`maxWorkers` items are being run. -/
structure PoolState where
  maxWorkers : Nat
  queued : Nat
  active : Nat
  completedTasks : Nat
deriving DecidableEq

/-- Executor transitions: submitting a work item, a pool thread starting a
queued item (bounded by `maxWorkers`), and a running item completing. -/
inductive PoolStep : PoolState → PoolState → Prop where
  | submit (s : PoolState) :
      PoolStep s { s with queued := s.queued + 1 }
  | startTask (s : PoolState) (hq : 0 < s.queued)
      (hw : s.active < s.maxWorkers) :
      PoolStep s { s with queued := s.queued - 1, active := s.active + 1 }
  | finishTask (s : PoolState) (ha : 0 < s.active) :
      PoolStep s
        { s with active := s.active - 1, completedTasks := s.completedTasks + 1 }

/-- The executor inside `dump_iter` right after its single
`executor.submit(self._dump_iter, ...)` on the
`ThreadPoolExecutor(max_workers=1)`: one work item submitted, none yet
running. -/
def dumpIterPool : PoolState := ⟨1, 1, 0, 0⟩

/-- The keyword arguments a `dump` call receives. -/
structure HintArgs where
  filename_hint : Option String
  encoding_hint : String
deriving DecidableEq

/-- The arguments `dumps` passes on to `self.dump`:
`filename_hint=filename_hint, encoding_hint=encoding_hint`. -/
def Exporter.dumps_dump_args (filename_hint : Option String)
    (encoding_hint : String) : HintArgs :=
  ⟨filename_hint, encoding_hint⟩

/-- The defaults in the signature of `dumps` (and of `dump` itself):
`filename_hint=None, encoding_hint="utf-8"`. -/
def Exporter.dumps_defaults : HintArgs := ⟨none, "utf-8"⟩

/-- The keyword arguments `_dump_iter` passes on to `self.dump`. -/
def Exporter.worker_dump_args (filename_hint : Option String)
    (encoding_hint : String) : HintArgs :=
  ⟨filename_hint, encoding_hint⟩

/-- The trailing positional arguments of
`executor.submit(self._dump_iter, queue, table, filename_hint, encoding_hint)`
in the order `_dump_iter`'s `(filename_hint, encoding_hint)` parameters
receive them. -/
def Exporter.dump_iter_submit_args (filename_hint : Option String)
    (encoding_hint : String) : Option String × String :=
  (filename_hint, encoding_hint)

/-- The defaults in the signatures of `dump_iter` and `_dump_iter`:
`filename_hint=None, encoding_hint="utf-8"`. -/
def Exporter.dump_iter_defaults : HintArgs := ⟨none, "utf-8"⟩

/-- The arguments the `dump` call in the worker ultimately receives when a
caller invokes `dump_iter` with the given hints: `dump_iter` forwards them
positionally through `executor.submit` to `_dump_iter`, which forwards
them by keyword to `dump`. -/
def Exporter.dump_iter_dump_args (filename_hint : Option String)
    (encoding_hint : String) : HintArgs :=
  Exporter.worker_dump_args
    (Exporter.dump_iter_submit_args filename_hint encoding_hint).1
    (Exporter.dump_iter_submit_args filename_hint encoding_hint).2

/-- Model of a Django `StreamingHttpResponse` as far as this module
configures one: it streams, it has a content type, and it may carry a
`Content-Disposition` header. -/
structure StreamingHttpResponse where
  streaming : Bool
  content_type : Option String
  content_disposition : Option String
deriving DecidableEq

/-- Python truthiness of the optional `filename` argument (`if filename:`):
`None` and the empty string are falsy. -/
def pyTruthy : Option String → Bool
  | none => false
  | some s => s != ""

/-- Python `str` conversion as used by `"{}.{}".format(...)`: `None`
renders as `"None"`. -/
def pyStr : Option String → String
  | none => "None"
  | some s => s

/-- Method `dump_http_reponse` (sic): build a Django
`StreamingHttpResponse` over `dump_iter(table, ...)` with the exporter's
`content_type`, and set
`Content-Disposition: attachment; filename="<filename>.<extension>"`
exactly when `filename` is truthy. -/
def Exporter.dump_http_reponse (e : Exporter) (filename : Option String) :
    StreamingHttpResponse :=
  let response : StreamingHttpResponse := ⟨true, e.content_type, none⟩
  let attachment : String :=
    "attachment; filename=\"" ++ pyStr filename ++ "." ++ pyStr e.extension ++ "\""
  if pyTruthy filename then
    { response with content_disposition := some attachment }
  else response

/-- Final configuration of a race-free run of `dump_iter` on a `dump` that
writes one chunk `[1]` and returns: started at `initState`, but with the
consumer's very first loop check happening while the worker is still
pending, so the loop exits at once and the chunk is never yielded. -/
def racyFinal : IterState :=
  ⟨⟨[[1]], none⟩, 20, 1, [[1]], WorkerStatus.done, ConsumerPhase.finished, []⟩

/-- Same startup race, for a `dump` that writes `[1]` and then raises:
the exception is re-raised but the enqueued chunk is never yielded. -/
def racyRaisedFinal : IterState :=
  ⟨⟨[[1]], some (PyExn.exporterError 0)⟩, 20, 1, [[1]], WorkerStatus.done,
    ConsumerPhase.raised, []⟩

/-- Final configuration of a normal run (worker started before the first
check) on a `dump` writing one chunk `[7]`. -/
def happyFinal : IterState :=
  ⟨⟨[[7]], none⟩, 2, 1, [], WorkerStatus.done, ConsumerPhase.finished, [[7]]⟩

/-- Final configuration of a normal run on a `dump` writing `[9]` and then
raising. -/
def raisedFinal : IterState :=
  ⟨⟨[[9]], some (PyExn.exporterError 7)⟩, 3, 1, [], WorkerStatus.done,
    ConsumerPhase.raised, [[9]]⟩

/-- With `buffer_size = 0`, `Queue(maxsize=0)` is unbounded: one produced
chunk already exceeds the requested bound. -/
def unboundedState : IterState :=
  ⟨⟨[[5]], none⟩, 0, 1, [[5]], WorkerStatus.running, ConsumerPhase.loop, []⟩

/-- A mid-run configuration with `buffer_size = 1` and a full queue. -/
def fullQueueState : IterState :=
  ⟨⟨[[1], [2]], none⟩, 1, 1, [[1]], WorkerStatus.running, ConsumerPhase.loop, []⟩

/-- Deadlock: the consumer exited the loop during the startup race, and
the worker, writing 2 chunks with `buffer_size = 1`, fills the queue and
blocks forever in `queue.put` while `future.result()` waits forever. -/
def deadlockState : IterState :=
  ⟨⟨[[1], [2]], none⟩, 1, 1, [[1]], WorkerStatus.running,
    ConsumerPhase.awaitResult, []⟩

lemma BytesIO.getvalue_foldl (l : List Chunk) (acc : List Nat) :
    (l.foldl BytesIO.write ⟨acc⟩).getvalue = acc ++ l.flatten := by
  induction l generalizing acc with
  | nil => simp [ BytesIO.getvalue]
  | cons b t ih => simp [List.foldl, BytesIO.write, ih, List.append_assoc]

lemma QueueWriter.writeSeq_queue (bs : List Chunk) (q : PyQueue) :
    ((QueueWriter.mk q).writeSeq bs).queue = ⟨q.items ++ bs, q.maxsize⟩ := by
  induction bs generalizing q with
  | nil => simp [QueueWriter.writeSeq]
  | cons b t ih =>
      simp [QueueWriter.writeSeq, List.foldl, QueueWriter.write] at ih ⊢
      simp [ih, List.append_assoc]

lemma iterInv_init (d : DumpBehavior) (bs : Nat) : IterInv d bs (initRunning d bs) := by
  refine ⟨rfl, rfl, ?_, ?_, ?_, ?_, ?_, ?_, ?_⟩ <;>
    simp [initRunning]

lemma iterInv_step {d : DumpBehavior} {bs : Nat} {s t : IterState}
    (hs : IterInv d bs s) (hstep : IterStep s t) : IterInv d bs t := by
  obtain ⟨hb, hbs, hw, hp, hyq, hdone, hcons, hr, hf⟩ := hs
  subst hb
  cases hstep with
  | start hw0 =>
      exact absurd hw0 hw
  | produce h hw0 hq0 =>
      refine ⟨rfl, hbs, hw, ?_, ?_, ?_, ?_, hr, hf⟩
      · show s.produced + 1 ≤ s.behavior.writes.length
        omega
      · show s.yielded ++ (s.queue ++ [s.behavior.writes.get ⟨s.produced, h⟩])
            = s.behavior.writes.take (s.produced + 1)
        rw [← List.append_assoc, hyq]
        simp
      · intro hd
        have hd' : s.worker = WorkerStatus.done := hd
        rw [hw0] at hd'
        exact absurd hd' (by decide)
      · intro hcl
        have hcl' : s.consumer ≠ ConsumerPhase.loop := hcl
        obtain ⟨hwd, -⟩ := hcons hcl'
        rw [hw0] at hwd
        exact absurd hwd (by decide)
  | finish hw0 h =>
      refine ⟨rfl, hbs, ?_, hp, hyq, ?_, ?_, hr, hf⟩
      · show WorkerStatus.done ≠ WorkerStatus.pending
        decide
      · intro _
        exact h
      · intro hcl
        have hcl' : s.consumer ≠ ConsumerPhase.loop := hcl
        exact ⟨rfl, (hcons hcl').2⟩
  | consume c rest hc hcond hq0 =>
      refine ⟨rfl, hbs, hw, hp, ?_, hdone, ?_, hr, hf⟩
      · show (s.yielded ++ [c]) ++ rest = s.behavior.writes.take s.produced
        rw [hq0] at hyq
        rw [List.append_assoc]
        simpa using hyq
      · intro hcl
        have hcl' : s.consumer ≠ ConsumerPhase.loop := hcl
        exact absurd hc hcl'
  | pollTimeout hc hcond hq0 =>
      exact ⟨rfl, hbs, hw, hp, hyq, hdone, hcons, hr, hf⟩
  | exitLoop hc hw0 hq0 =>
      have hwd : s.worker = WorkerStatus.done := by
        cases hws : s.worker
        · exact absurd hws hw
        · exact absurd hws hw0
        · rfl
      refine ⟨rfl, hbs, hw, hp, hyq, hdone, ?_, ?_, ?_⟩
      · intro _
        exact ⟨hwd, hq0⟩
      · intro hcl
        have hcl' : ConsumerPhase.awaitResult = ConsumerPhase.raised := hcl
        exact absurd hcl' (by decide)
      · intro hcl
        have hcl' : ConsumerPhase.awaitResult = ConsumerPhase.finished := hcl
        exact absurd hcl' (by decide)
  | getResult hc hw0 =>
      have hcl0 : s.consumer ≠ ConsumerPhase.loop := by
        rw [hc]
        decide
      have hql : s.queue = [] := (hcons hcl0).2
      refine ⟨rfl, hbs, hw, hp, hyq, hdone, ?_, ?_, ?_⟩
      · intro _
        exact ⟨hw0, hql⟩
      · show (if s.behavior.raises.isSome then ConsumerPhase.raised
            else ConsumerPhase.finished) = ConsumerPhase.raised →
          s.behavior.raises.isSome = true
        rcases hrs : s.behavior.raises with _ | e <;> simp [hrs]
      · show (if s.behavior.raises.isSome then ConsumerPhase.raised
            else ConsumerPhase.finished) = ConsumerPhase.finished →
          s.behavior.raises = none
        rcases hrs : s.behavior.raises with _ | e <;> simp [hrs]

lemma iterInv_reach {d : DumpBehavior} {bs : Nat} {s : IterState}
    (h : Reach (initRunning d bs) s) : IterInv d bs s := by
  induction h with
  | refl => exact iterInv_init d bs
  | tail _ hbc ih => exact iterInv_step ih hbc

lemma queueInv_step {bs : Nat} {s t : IterState}
    (hs : QueueInv bs s) (hstep : IterStep s t) : QueueInv bs t := by
  obtain ⟨hbs, hlen⟩ := hs
  cases hstep with
  | start hw0 => exact ⟨hbs, hlen⟩
  | produce h hw0 hq0 =>
      refine ⟨hbs, ?_⟩
      intro h1
      show (s.queue ++ [s.behavior.writes.get ⟨s.produced, h⟩]).length ≤ bs
      rw [List.length_append]
      rcases hq0 with h0 | hlt
      · rw [hbs] at h0
        omega
      · rw [hbs] at hlt
        simp only [List.length_singleton]
        omega
  | finish hw0 h => exact ⟨hbs, hlen⟩
  | consume c rest hc hcond hq0 =>
      refine ⟨hbs, ?_⟩
      intro h1
      have := hlen h1
      rw [hq0] at this
      show rest.length ≤ bs
      simp only [List.length_cons] at this
      omega
  | pollTimeout hc hcond hq0 => exact ⟨hbs, hlen⟩
  | exitLoop hc hw0 hq0 => exact ⟨hbs, hlen⟩
  | getResult hc hw0 => exact ⟨hbs, hlen⟩

lemma queueInv_reach {d : DumpBehavior} {bs : Nat} {s : IterState}
    (h : Reach (initState d bs) s) : QueueInv bs s := by
  induction h with
  | refl => exact ⟨rfl, fun _ => by simp [initState]⟩
  | tail _ hbc ih => exact queueInv_step ih hbc

lemma racy_run : Reach (initState ⟨[[1]], none⟩ 20) racyFinal := by
  apply Relation.ReflTransGen.head (IterStep.exitLoop _ (by decide) (by decide) (by decide))
  apply Relation.ReflTransGen.head (IterStep.start _ (by decide))
  apply Relation.ReflTransGen.head
    (IterStep.produce _ (by decide) (by decide) (Or.inr (by decide)))
  apply Relation.ReflTransGen.head (IterStep.finish _ (by decide) (by decide))
  apply Relation.ReflTransGen.head (IterStep.getResult _ (by decide) (by decide))
  exact Relation.ReflTransGen.refl

lemma racy_raised_run :
    Reach (initState ⟨[[1]], some (PyExn.exporterError 0)⟩ 20) racyRaisedFinal := by
  apply Relation.ReflTransGen.head (IterStep.exitLoop _ (by decide) (by decide) (by decide))
  apply Relation.ReflTransGen.head (IterStep.start _ (by decide))
  apply Relation.ReflTransGen.head
    (IterStep.produce _ (by decide) (by decide) (Or.inr (by decide)))
  apply Relation.ReflTransGen.head (IterStep.finish _ (by decide) (by decide))
  apply Relation.ReflTransGen.head (IterStep.getResult _ (by decide) (by decide))
  exact Relation.ReflTransGen.refl

lemma happy_run : Reach (initRunning ⟨[[7]], none⟩ 2) happyFinal := by
  apply Relation.ReflTransGen.head
    (IterStep.produce _ (by decide) (by decide) (Or.inr (by decide)))
  apply Relation.ReflTransGen.head (IterStep.finish _ (by decide) (by decide))
  apply Relation.ReflTransGen.head
    (IterStep.consume _ [7] [] (by decide) (Or.inr (by decide)) (by decide))
  apply Relation.ReflTransGen.head (IterStep.exitLoop _ (by decide) (by decide) (by decide))
  apply Relation.ReflTransGen.head (IterStep.getResult _ (by decide) (by decide))
  exact Relation.ReflTransGen.refl

lemma raising_run :
    Reach (initRunning ⟨[[9]], some (PyExn.exporterError 7)⟩ 3) raisedFinal := by
  apply Relation.ReflTransGen.head
    (IterStep.produce _ (by decide) (by decide) (Or.inr (by decide)))
  apply Relation.ReflTransGen.head (IterStep.finish _ (by decide) (by decide))
  apply Relation.ReflTransGen.head
    (IterStep.consume _ [9] [] (by decide) (Or.inr (by decide)) (by decide))
  apply Relation.ReflTransGen.head (IterStep.exitLoop _ (by decide) (by decide) (by decide))
  apply Relation.ReflTransGen.head (IterStep.getResult _ (by decide) (by decide))
  exact Relation.ReflTransGen.refl

lemma unbounded_run : Reach (initState ⟨[[5]], none⟩ 0) unboundedState := by
  apply Relation.ReflTransGen.head (IterStep.start _ (by decide))
  apply Relation.ReflTransGen.head
    (IterStep.produce _ (by decide) (by decide) (Or.inl (by decide)))
  exact Relation.ReflTransGen.refl

lemma full_queue_run : Reach (initState ⟨[[1], [2]], none⟩ 1) fullQueueState := by
  apply Relation.ReflTransGen.head (IterStep.start _ (by decide))
  apply Relation.ReflTransGen.head
    (IterStep.produce _ (by decide) (by decide) (Or.inr (by decide)))
  exact Relation.ReflTransGen.refl

lemma deadlock_run : Reach (initState ⟨[[1], [2]], none⟩ 1) deadlockState := by
  apply Relation.ReflTransGen.head (IterStep.exitLoop _ (by decide) (by decide) (by decide))
  apply Relation.ReflTransGen.head (IterStep.start _ (by decide))
  apply Relation.ReflTransGen.head
    (IterStep.produce _ (by decide) (by decide) (Or.inr (by decide)))
  exact Relation.ReflTransGen.refl

lemma deadlock_stuck : IterStuck deadlockState := by
  intro t h
  cases h with
  | start hw0 => exact absurd hw0 (by decide)
  | produce h hw0 hq0 =>
      rcases hq0 with h0 | h1
      · exact absurd h0 (by decide)
      · exact absurd h1 (by decide)
  | finish hw0 h => exact absurd h (by decide)
  | consume c rest hc hcond hq0 => exact absurd hc (by decide)
  | pollTimeout hc hcond hq0 => exact absurd hc (by decide)
  | exitLoop hc hw0 hq0 => exact absurd hc (by decide)
  | getResult hc hw0 => exact absurd hw0 (by decide)

lemma poolInv_reach (s : PoolState)
    (h : Relation.ReflTransGen PoolStep dumpIterPool s) :
    s.maxWorkers = 1 ∧ s.active ≤ 1 := by
  induction h with
  | refl => exact ⟨rfl, by decide⟩
  | tail _ hbc ih =>
      obtain ⟨hm, ha⟩ := ih
      cases hbc with
      | submit => exact ⟨hm, ha⟩
      | startTask hq hw =>
          refine ⟨hm, ?_⟩
          rw [hm] at hw
          show _ + 1 ≤ 1
          omega
      | finishTask ha0 =>
          refine ⟨hm, ?_⟩
          show _ - 1 ≤ 1
          omega

/-- C1 (amended): provided the background worker has entered the running
state before the consumer's first loop check (barring the startup race
where `future.running()` is still `False` for the pending work item),
every completed iteration of `dump_iter` has yielded exactly the chunks
`dump` wrote, in order, with none dropped or duplicated, and their
concatenation is the value `dumps` returns. -/
theorem dump_iter_yields_exactly_writes (d : DumpBehavior) (bs : Nat)
    (s : IterState) (hnoexn : d.raises = none)
    (h : Reach (initRunning d bs) s) (hterm : terminalPhase s) :
    s.yielded = d.writes ∧ Exporter.dumps d = Except.ok s.yielded.flatten := by
  obtain ⟨hb, hbs, hw, hp, hyq, hdone, hcons, hr, hf⟩ := iterInv_reach h
  subst hb
  have hcl : s.consumer ≠ ConsumerPhase.loop := by
    rcases hterm with h1 | h1 <;> rw [h1] <;> decide
  obtain ⟨hwd, hql⟩ := hcons hcl
  have hplen := hdone hwd
  rw [hql, List.append_nil, hplen] at hyq
  have hy : s.yielded = s.behavior.writes := by
    rw [hyq]
    exact List.take_length _
  refine ⟨hy, ?_⟩
  rw [hy]
  simp [Exporter.dumps, hnoexn, BytesIO.getvalue_foldl]

/-- Witness for C1: a complete race-free run on a `dump` writing `[7]`. -/
theorem dump_iter_yields_exactly_writes_witness :
    happyFinal.yielded = [[7]] ∧
    Exporter.dumps ⟨[[7]], none⟩ = Except.ok happyFinal.yielded.flatten :=
  dump_iter_yields_exactly_writes ⟨[[7]], none⟩ 2 happyFinal rfl happy_run
    (Or.inl rfl)

/-- C1 counterexample: under the schedule where the consumer's first check
of `future.running() or not queue.empty()` happens before the pool thread
has started the work item, `dump_iter` completes having yielded nothing,
although `dump` wrote the chunk `[1]` (which `dumps` returns): the claim
that the yielded sequence always equals the written sequence is false. -/
theorem dump_iter_drops_chunk_counterexample :
    Reach (initState ⟨[[1]], none⟩ 20) racyFinal ∧
    racyFinal.consumer = ConsumerPhase.finished ∧
    racyFinal.yielded = [] ∧
    Exporter.dumps ⟨[[1]], none⟩ = Except.ok [1] ∧
    racyFinal.yielded.flatten ≠ [1] :=
  ⟨racy_run, rfl, rfl, rfl, by decide⟩

/-- C2 (amended): provided the worker has entered the running state before
the consumer's first loop check, a completed iteration has yielded every
chunk `dump` wrote before raising, and it ends by re-raising the worker's
exception exactly when `dump` raised one. -/
theorem dump_iter_reraises_worker_exception (d : DumpBehavior) (bs : Nat)
    (s : IterState) (h : Reach (initRunning d bs) s)
    (hterm : terminalPhase s) :
    s.yielded = d.writes ∧
    (s.consumer = ConsumerPhase.raised ↔ d.raises.isSome = true) := by
  obtain ⟨hb, hbs, hw, hp, hyq, hdone, hcons, hr, hf⟩ := iterInv_reach h
  subst hb
  have hcl : s.consumer ≠ ConsumerPhase.loop := by
    rcases hterm with h1 | h1 <;> rw [h1] <;> decide
  obtain ⟨hwd, hql⟩ := hcons hcl
  have hplen := hdone hwd
  rw [hql, List.append_nil, hplen] at hyq
  refine ⟨by rw [hyq]; exact List.take_length _, ?_, ?_⟩
  · exact hr
  · intro hsome
    rcases hterm with h1 | h1
    · rw [hf h1] at hsome
      exact absurd hsome (by decide)
    · exact h1

/-- Witness for C2: a complete race-free run on a `dump` that writes `[9]`
and then raises; the chunk is yielded, then the exception re-raised. -/
theorem dump_iter_reraises_worker_exception_witness :
    raisedFinal.yielded = [[9]] ∧
    (raisedFinal.consumer = ConsumerPhase.raised ↔
      (Option.isSome (some (PyExn.exporterError 7)) = true)) :=
  dump_iter_reraises_worker_exception ⟨[[9]], some (PyExn.exporterError 7)⟩ 3
    raisedFinal raising_run (Or.inr rfl)

/-- C2 counterexample: in the startup-race schedule the worker's exception
is re-raised, but the chunk that was already enqueued is never yielded,
contradicting the claim that the re-raise happens after the enqueued
chunks have been yielded. -/
theorem dump_iter_reraise_drops_enqueued_counterexample :
    Reach (initState ⟨[[1]], some (PyExn.exporterError 0)⟩ 20) racyRaisedFinal ∧
    racyRaisedFinal.consumer = ConsumerPhase.raised ∧
    racyRaisedFinal.produced = 1 ∧
    racyRaisedFinal.queue = [[1]] ∧
    racyRaisedFinal.yielded = [] :=
  ⟨racy_raised_run, rfl, rfl, rfl, rfl⟩

/-- C3 (amended): for every `buffer_size ≥ 1` (Python's `Queue(maxsize=0)`
is unbounded, so `buffer_size = 0` is excluded), at every point of every
schedule of `dump_iter` the internal queue holds at most `buffer_size`
chunks, because `queue.put` blocks while the queue is full. -/
theorem dump_iter_queue_bounded (d : DumpBehavior) (bs : Nat)
    (s : IterState) (hbs : 1 ≤ bs) (h : Reach (initState d bs) s) :
    s.queue.length ≤ bs :=
  (queueInv_reach h).2 hbs

/-- Witness for C3: a run with `buffer_size = 1` whose queue is full. -/
theorem dump_iter_queue_bounded_witness : fullQueueState.queue.length ≤ 1 :=
  dump_iter_queue_bounded ⟨[[1], [2]], none⟩ 1 fullQueueState (by decide)
    full_queue_run

/-- C3 counterexample: with `buffer_size = 0` the queue is unbounded
(`Queue(maxsize=0)` means infinite in Python), so a reachable state holds
more than `buffer_size` chunks, refuting the claim for every N. -/
theorem dump_iter_zero_buffer_counterexample :
    Reach (initState ⟨[[5]], none⟩ 0) unboundedState ∧
    unboundedState.bufferSize = 0 ∧
    unboundedState.queue.length = 1 ∧
    ¬ unboundedState.queue.length ≤ unboundedState.bufferSize :=
  ⟨unbounded_run, rfl, rfl, by decide⟩

/-- C4: `dumps` returns exactly the concatenation, in write order, of the
byte chunks `dump` writes to the `io.BytesIO` sink. -/
theorem dumps_is_concatenation_of_writes (d : DumpBehavior)
    (h : d.raises = none) :
    Exporter.dumps d = Except.ok d.writes.flatten := by
  simp [Exporter.dumps, h, BytesIO.getvalue_foldl]

/-- Witness for C4 at a concrete two-chunk dump. -/
theorem dumps_is_concatenation_of_writes_witness :
    Exporter.dumps ⟨[[1, 2], [3]], none⟩ = Except.ok [1, 2, 3] :=
  dumps_is_concatenation_of_writes ⟨[[1, 2], [3]], none⟩ rfl

/-- C5 (amended): provided the worker has entered the running state before
the consumer's first loop check, from every reachable configuration the
iteration has either completed or some step other than an `Empty` poll
timeout is enabled and strictly decreases the termination measure
`IterState.size`; hence there is no deadlock and, under fair scheduling of
producer and consumer, iterating `dump_iter` over a finite terminating
`dump` terminates. -/
theorem dump_iter_progress (d : DumpBehavior) (bs : Nat) (s : IterState)
    (h : Reach (initRunning d bs) s) : ProgressAt s := by
  obtain ⟨hb, hbs, hw, hp, hyq, hdone, hcons, hr, hf⟩ := iterInv_reach h
  subst hb
  rcases hc : s.consumer with _ | _ | _ | _
  · -- loop
    rcases hq : s.queue with _ | ⟨c, rest⟩
    · rcases hwk : s.worker with _ | _ | _
      · exact absurd hwk hw
      · rcases Nat.lt_or_ge s.produced s.behavior.writes.length with hlt | hge
        · refine Or.inr ⟨_, IterStep.produce s hlt hwk ?_, ?_⟩
          · rcases Nat.eq_zero_or_pos s.bufferSize with h0 | h1
            · exact Or.inl h0
            · refine Or.inr ?_
              rw [hq]
              simpa using h1
          · simp only [IterState.size, List.length_append, List.length_cons,
              List.length_nil]
            omega
        · have hpe : s.produced = s.behavior.writes.length :=
            Nat.le_antisymm hp hge
          refine Or.inr ⟨_, IterStep.finish s hwk hpe, ?_⟩
          rw [IterState.size, IterState.size, hwk]
          simp only [workerRank]
          omega
      · refine Or.inr ⟨_, IterStep.exitLoop s hc (by rw [hwk]; decide) hq, ?_⟩
        rw [IterState.size, IterState.size, hc]
        simp only [consumerRank]
        omega
    · refine Or.inr ⟨_, IterStep.consume s c rest hc ?_ hq, ?_⟩
      · refine Or.inr ?_
        rw [hq]
        simp
      · rw [IterState.size, IterState.size, hq]
        simp only [List.length_cons]
        omega
  · -- awaitResult
    have hcl : s.consumer ≠ ConsumerPhase.loop := by
      rw [hc]
      decide
    obtain ⟨hwd, hql⟩ := hcons hcl
    refine Or.inr ⟨_, IterStep.getResult s hc hwd, ?_⟩
    have h0 : consumerRank (if s.behavior.raises.isSome = true
        then ConsumerPhase.raised else ConsumerPhase.finished) = 0 := by
      split <;> rfl
    rw [IterState.size, IterState.size, hc]
    dsimp only
    rw [h0]
    simp only [consumerRank]
    omega
  · exact Or.inl (Or.inl hc)
  · exact Or.inl (Or.inr hc)

/-- Witness for C5, applied at the initial running configuration. -/
theorem dump_iter_progress_witness : ProgressAt (initRunning ⟨[[7]], none⟩ 1) :=
  dump_iter_progress ⟨[[7]], none⟩ 1 _ Relation.ReflTransGen.refl

/-- C5 counterexample: under the startup-race schedule with a `dump`
writing 2 chunks and `buffer_size = 1`, the system reaches a configuration
where no step at all is enabled — the worker blocks forever in `queue.put`
and `future.result()` waits forever — so iterating `dump_iter` does not
terminate even though `dump` writes finitely many chunks. -/
theorem dump_iter_deadlock_counterexample :
    Reach (initState ⟨[[1], [2]], none⟩ 1) deadlockState ∧
    IterStuck deadlockState ∧
    ¬ terminalPhase deadlockState :=
  ⟨deadlock_run, deadlock_stuck, by decide⟩

/-- C6: the base `Exporter.dump` raises
`NotImplementedError("Subclasses should implement this method.")` and
writes nothing: the sink comes back unchanged. -/
theorem base_dump_raises_not_implemented (fo : BytesIO) :
    (Exporter.dump fo).2
        = some (PyExn.notImplementedError Exporter.notImplementedMsg) ∧
    (Exporter.dump fo).1 = fo :=
  ⟨rfl, rfl⟩

/-- C7: writing chunks `b1, ..., bn` in order through `QueueWriter(q)`
enqueues exactly those chunks onto `q` in that order, each unchanged, and
leaves the queue's bound alone. -/
theorem queue_writer_enqueues_in_order (q : PyQueue) (bs : List Chunk) :
    ((QueueWriter.mk q).writeSeq bs).queue.items = q.items ++ bs ∧
    ((QueueWriter.mk q).writeSeq bs).queue.maxsize = q.maxsize := by
  rw [QueueWriter.writeSeq_queue]
  exact ⟨rfl, rfl⟩

/-- C8: `dump_iter` submits a single `_dump_iter` work item to a
`ThreadPoolExecutor(max_workers=1)`; in every state the executor can reach
from that submission, at most one work item is being run, so no two
producer threads ever write to the queue concurrently. -/
theorem dump_iter_single_producer (s : PoolState)
    (h : Relation.ReflTransGen PoolStep dumpIterPool s) : s.active ≤ 1 :=
  (poolInv_reach s h).2

/-- Witness for C8 at the post-submit executor state. -/
theorem dump_iter_single_producer_witness : dumpIterPool.active ≤ 1 :=
  dump_iter_single_producer dumpIterPool Relation.ReflTransGen.refl

/-- C9: `dumps`, `dump_iter` and `_dump_iter` pass `filename_hint` and
`encoding_hint` through to `dump` unchanged, and all of them default to
`filename_hint=None, encoding_hint="utf-8"`. -/
theorem hints_passed_unchanged (fh : Option String) (eh : String) :
    Exporter.dumps_dump_args fh eh = ⟨fh, eh⟩ ∧
    Exporter.worker_dump_args fh eh = ⟨fh, eh⟩ ∧
    Exporter.dump_iter_dump_args fh eh = ⟨fh, eh⟩ ∧
    Exporter.dumps_defaults = ⟨none, "utf-8"⟩ ∧
    Exporter.dump_iter_defaults = ⟨none, "utf-8"⟩ :=
  ⟨rfl, rfl, rfl, rfl, rfl⟩

/-- C10: `dump_http_reponse` returns a streaming response with the
exporter's `content_type`; it carries
`Content-Disposition: attachment; filename="<filename>.<extension>"`
exactly when a non-empty filename is given, and no such header when the
filename is `None` or empty. -/
theorem dump_http_reponse_spec (e : Exporter) (f : String) (hf : f ≠ "") :
    (Exporter.dump_http_reponse e none).content_disposition = none ∧
    (Exporter.dump_http_reponse e (some "")).content_disposition = none ∧
    (Exporter.dump_http_reponse e (some f)).content_disposition
        = some ("attachment; filename=\"" ++ f ++ "." ++ pyStr e.extension
            ++ "\"") ∧
    (∀ fn : Option String,
      (Exporter.dump_http_reponse e fn).content_type = e.content_type ∧
      (Exporter.dump_http_reponse e fn).streaming = true) := by
  refine ⟨rfl, ?_, ?_, ?_⟩
  · simp [Exporter.dump_http_reponse, pyTruthy]
  · have ht : pyTruthy (some f) = true := by
      simp [pyTruthy, hf]
    simp [Exporter.dump_http_reponse, ht, pyStr]
  · intro fn
    cases hpt : pyTruthy fn <;> simp [Exporter.dump_http_reponse, hpt]

/-- Witness for C10 on a csv exporter and the filename "report". -/
theorem dump_http_reponse_spec_witness :
    (Exporter.dump_http_reponse ⟨some "csv", some "text/csv"⟩
        (some "report")).content_disposition
      = some ("attachment; filename=\"" ++ "report" ++ "."
          ++ pyStr (some "csv") ++ "\"") :=
  (dump_http_reponse_spec ⟨some "csv", some "text/csv"⟩ "report"
    (by decide)).2.2.1
